import Mathlib

/-!
Shallow embedding of the authorization decision subsystem of the RBAC-algorithm
repository: the in-memory storage lookups (`src/rbac/storage/memory.py`), the
role hierarchy resolver (`src/rbac/engine/hierarchy.py`), the ABAC policy
evaluator (`src/rbac/engine/evaluator.py`) and the authorization engine
(`src/rbac/engine/engine.py`).

Modelling conventions:
* Python exceptions become `Except RbacErr`; the builtin `KeyError`,
  `IndexError`, `TypeError` and `ValueError` that can escape the evaluator get
  their own constructors.
* JSON-like Python values (context attributes, condition expressions) are the
  inductive `Value`.  Python floats are outside the modelled value domain
  (the repository's own conditions and contexts only use strings, ints and
  booleans); numeric values are modelled as `Int`.
* Python `dict`s keep insertion order and unique keys; they are modelled as
  association lists written by `setEntry`, which replaces the first (unique)
  occurrence of the key.  Python `set`s, whose iteration order is not
  specified, are modelled as insertion-ordered duplicate-free lists.
* `datetime.utcnow()` is modelled by a single `Time` parameter per call; the
  repository calls it several times per check with an instant that can only
  differ by microseconds, and every claim is about a single instant.
* The hierarchy resolver's internal `_hierarchy_cache` is a write-once memo of
  a value that is a pure function of the (immutable during a check) storage,
  so `_resolve_hierarchy` is modelled as that pure function.  The injected
  engine cache (`ICacheProvider`) is modelled explicitly because the claims
  talk about its entries and their TTL.
-/

namespace RBAC

/-- JSON-like attribute value (Python scalars plus lists and dicts). -/
inductive Value where
  | str (s : String)
  | int (n : Int)
  | bool (b : Bool)
  | none
  | list (xs : List Value)
  | dict (entries : List (String × Value))
deriving Repr

/-- Errors: the repository's exception classes that the modelled code can
raise, plus the Python builtin lookup/conversion errors that escape the
policy evaluator uncaught (`evaluator.py` only catches `KeyError` in
`_evaluate_field`). `maxDepthExceeded` mirrors the `MaxDepthExceeded` class of
`core/exceptions.py` (message plus current/max depth payload); the embedded
code never constructs it, which is exactly what claim C3 is about. -/
inductive RbacErr where
  | userNotFound (msg : String)
  | roleNotFound (msg : String)
  | permissionNotFound (msg : String)
  | resourceNotFound (msg : String)
  | circularDependency (msg : String)
  | maxDepthExceeded (msg : String) (currentDepth : Nat) (maximumDepth : Nat)
  | policyEvaluationError (msg : String)
  | pyKeyError
  | pyIndexError
  | pyTypeError
  | pyValueError
deriving Repr, DecidableEq

/-- Decidable equality for `Except` results (used by witness `decide`s). -/
instance {e a : Type} [DecidableEq e] [DecidableEq a] : DecidableEq (Except e a)
  | .error x, .error y =>
    decidable_of_iff (x = y) ⟨fun h => by rw [h], fun h => by injection h⟩
  | .error _, .ok _ => .isFalse (fun h => Except.noConfusion h)
  | .ok _, .error _ => .isFalse (fun h => Except.noConfusion h)
  | .ok x, .ok y =>
    decidable_of_iff (x = y) ⟨fun h => by rw [h], fun h => by injection h⟩

/-- `EntityStatus` from `core/models/__init__.py`. -/
inductive EntityStatus where
  | active
  | inactive
  | suspended
  | deleted
deriving Repr, DecidableEq

/-- `EntityStatus.value` (the string payload of the Python enum). -/
def EntityStatus.value : EntityStatus → String
  | .active => "active"
  | .inactive => "inactive"
  | .suspended => "suspended"
  | .deleted => "deleted"

/-- `User` dataclass (`core/models/__init__.py`). -/
structure User where
  id : String
  email : String
  name : Option String := Option.none
  attributes : List (String × Value) := []
  status : EntityStatus := .active
  domain : Option String := Option.none
deriving Repr

/-- `Role` dataclass (`core/models/role.py`); `permissions` is a Python set of
permission ids, modelled as an insertion-ordered duplicate-free list. -/
structure Role where
  id : String
  name : String
  permissions : List String := []
  parent_id : Option String := Option.none
  domain : Option String := Option.none
  status : EntityStatus := .active
deriving Repr, DecidableEq

/-- `Permission` dataclass (`core/models/__init__.py`); an absent/`None`
condition dict is modelled as `[]`, matching Python truthiness. -/
structure Permission where
  id : String
  resource_type : String
  action : String
  conditions : List (String × Value) := []
deriving Repr

/-- `Resource` dataclass (`core/models/__init__.py`). -/
structure Resource where
  id : String
  type : String
  attributes : List (String × Value) := []
  status : EntityStatus := .active
  domain : Option String := Option.none
deriving Repr

/-- `RoleAssignment`; `expires_at` is a unix-style timestamp. -/
structure RoleAssignment where
  user_id : String
  role_id : String
  domain : Option String := Option.none
  expires_at : Option Int := Option.none
deriving Repr

/-- The single check-time instant (`datetime.utcnow()`): the fields the engine
puts into the temporal context block plus the raw timestamp used for
assignment-expiry comparison. -/
structure Time where
  iso : String := ""
  hour : Int := 0
  dayOfWeek : Int := 0
  timestamp : Int := 0
deriving Repr

/-- `MemoryStorage` (`storage/memory.py`): the four entity dictionaries (as
lists keyed by `id` in insertion order) and the assignment list. -/
structure MemoryStorage where
  users : List User := []
  roles : List Role := []
  permissions : List Permission := []
  resources : List Resource := []
  role_assignments : List RoleAssignment := []
deriving Repr

/-- `MemoryStorage.get_user`: missing or soft-deleted users raise
`UserNotFound`. -/
def stGetUser (st : MemoryStorage) (uid : String) : Except RbacErr User :=
  match st.users.find? (fun u => u.id = uid) with
  | Option.none => .error (.userNotFound s!"User {uid} not found")
  | Option.some u =>
    if u.status = .deleted then .error (.userNotFound s!"User {uid} not found")
    else .ok u

/-- `MemoryStorage.get_role`: missing or soft-deleted roles raise
`RoleNotFound`. -/
def stGetRole (st : MemoryStorage) (rid : String) : Except RbacErr Role :=
  match st.roles.find? (fun r => r.id = rid) with
  | Option.none => .error (.roleNotFound s!"Role {rid} not found")
  | Option.some r =>
    if r.status = .deleted then .error (.roleNotFound s!"Role {rid} not found")
    else .ok r

/-- `MemoryStorage.get_permission` (no status check on permissions). -/
def stGetPermission (st : MemoryStorage) (pid : String) : Except RbacErr Permission :=
  match st.permissions.find? (fun p => p.id = pid) with
  | Option.none => .error (.permissionNotFound s!"Permission {pid} not found")
  | Option.some p => .ok p

/-- `MemoryStorage.get_resource`: missing or soft-deleted resources raise
`ResourceNotFound`. -/
def stGetResource (st : MemoryStorage) (rid : String) : Except RbacErr Resource :=
  match st.resources.find? (fun r => r.id = rid) with
  | Option.none => .error (.resourceNotFound s!"Resource {rid} not found")
  | Option.some r =>
    if r.status = .deleted then .error (.resourceNotFound s!"Resource {rid} not found")
    else .ok r

/-- `if assignment.expires_at and assignment.expires_at < now:` — `None` is
falsy, so only a present timestamp in the past counts as expired. -/
def assignmentExpired (expires_at : Option Int) (now : Time) : Bool :=
  match expires_at with
  | Option.none => false
  | Option.some t => t < now.timestamp

/-- `MemoryStorage.get_user_roles`: raises `UserNotFound` when the id is not a
key of the user dict (NOTE: soft-deleted users are still keys, and there is no
status check here); collects the role ids of the user's non-expired,
domain-matching assignments into a set, then resolves each id with `get_role`,
silently skipping ids that fail to resolve. -/
def stGetUserRoles (st : MemoryStorage) (uid : String) (domain : Option String)
    (now : Time) : Except RbacErr (List Role) :=
  if (st.users.find? (fun u => u.id = uid)).isNone then
    .error (.userNotFound s!"User {uid} not found")
  else
    let roleIds : List String := st.role_assignments.foldl
      (fun acc a =>
        if a.user_id ≠ uid then acc
        else if domain.isSome ∧ a.domain ≠ domain then acc
        else if assignmentExpired a.expires_at now then acc
        else if a.role_id ∈ acc then acc else acc ++ [a.role_id]) []
    .ok (roleIds.filterMap (fun rid => (stGetRole st rid).toOption))

/-- `MemoryStorage.list_roles` (offset 0): optional domain filter (`is not
None`, so an empty-string domain still filters), drop soft-deleted roles, then
truncate to `limit`. -/
def stListRoles (st : MemoryStorage) (domain : Option String) (limit : Nat) :
    List Role :=
  let base := if domain.isSome then st.roles.filter (fun r => r.domain = domain)
              else st.roles
  (base.filter (fun r => r.status ≠ .deleted)).take limit

/-! ## Policy evaluator (`engine/evaluator.py`) -/

/-- Python `str.strip()` on the character list of a string. -/
def trimChars (l : List Char) : List Char :=
  ((l.dropWhile Char.isWhitespace).reverse.dropWhile Char.isWhitespace).reverse

/-- Python `int(s)`: optional surrounding whitespace, optional sign, decimal
digits; anything else raises `ValueError`. -/
def parsePyInt (s : String) : Except Unit Int :=
  let t := trimChars s.toList
  let signed : Int × List Char :=
    match t with
    | '-' :: rest => (-1, rest)
    | '+' :: rest => (1, rest)
    | _ => (1, t)
  if signed.2.isEmpty || !(signed.2.all Char.isDigit) then .error ()
  else .ok (signed.1 * ((signed.2.foldl (fun acc c => acc * 10 + (c.toNat - 48)) 0 : Nat) : Int))

/-- Python `path.split('.')` (keeps empty segments). -/
def splitDots : List Char → List (List Char)
  | [] => [[]]
  | '.' :: rest => [] :: splitDots rest
  | c :: rest =>
    match splitDots rest with
    | seg :: segs => (c :: seg) :: segs
    | [] => [[c]]

/-- Index of the first occurrence of a character (Python `key.index(c)` /
`c in key`). -/
def charIndex : List Char → Char → Option Nat
  | [], _ => Option.none
  | c :: rest, t => if c = t then Option.some 0 else (charIndex rest t).map (· + 1)

/-- The Python builtin exceptions `_get_nested_value` can raise: `KeyError`
(missing dict key), `IndexError` (sequence index out of range), `TypeError`
(subscripting a non-dict with a string key, or an unsubscriptable value),
`ValueError` (non-numeric text between the brackets fed to `int()`).
`_evaluate_field` catches only `keyError`. -/
inductive LookupErr where
  | keyError
  | indexError
  | typeError
  | valueError
deriving Repr, DecidableEq

/-- First binding of a key in a Python dict modelled as an association list. -/
def assocFind (es : List (String × Value)) (k : String) : Option Value :=
  (es.find? (fun e => e.1 = k)).map (fun e => e.2)

/-- Python list subscription with negative-index support. -/
def pyListIndex (xs : List Value) (i : Int) : Except LookupErr Value :=
  let j : Int := if i < 0 then i + xs.length else i
  if 0 ≤ j ∧ j < (xs.length : Int) then
    match xs.get? j.toNat with
    | Option.some v => .ok v
    | Option.none => .error .indexError
  else .error .indexError

/-- `value[key]` for a string key. -/
def plainLookup (v : Value) (key : String) : Except LookupErr Value :=
  match v with
  | .dict es =>
    match assocFind es key with
    | Option.some w => .ok w
    | Option.none => .error .keyError
  | _ => .error .typeError

/-- `value[index]` for an integer index: list and string subscription work,
an integer key is absent from the string-keyed dicts of this model
(`KeyError`), everything else is unsubscriptable (`TypeError`). -/
def indexLookup (v : Value) (i : Int) : Except LookupErr Value :=
  match v with
  | .list xs => pyListIndex xs i
  | .str s =>
    let cs := s.toList
    let j : Int := if i < 0 then i + cs.length else i
    if 0 ≤ j ∧ j < (cs.length : Int) then
      match cs.get? j.toNat with
      | Option.some c => .ok (.str (String.mk [c]))
      | Option.none => .error .indexError
    else .error .indexError
  | .dict _ => .error .keyError
  | _ => .error .typeError

/-- One step of `_get_nested_value`'s loop: when the key contains both `[` and
`]`, parse the text between the first `[` and the first `]` with `int()` and
subscript twice (`value[key_name][index]`); otherwise subscript once. -/
def lookupStep (v : Value) (key : String) : Except LookupErr Value :=
  let cs := key.toList
  match charIndex cs '[', charIndex cs ']' with
  | Option.some i, Option.some j =>
    let keyName := String.mk (cs.take i)
    let idxStr := String.mk ((cs.drop (i + 1)).take (j - (i + 1)))
    match parsePyInt idxStr with
    | .error _ => .error .valueError
    | .ok idx =>
      match plainLookup v keyName with
      | .error e => .error e
      | .ok inner => indexLookup inner idx
  | _, _ => plainLookup v key

/-- `PolicyEvaluator._get_nested_value`: split the dotted path and descend. -/
def getNestedValue (path : String) (data : List (String × Value)) :
    Except LookupErr Value :=
  ((splitDots path.toList).map String.mk).foldlM (fun v k => lookupStep v k) (Value.dict data)

mutual

/-- Python `repr` restricted to the modelled value domain (string escaping is
not reproduced; no claim depends on it). -/
def pyRepr : Value → String
  | .str s => "\x27" ++ s ++ "\x27"
  | .int n => toString n
  | .bool b => cond b "True" "False"
  | .none => "None"
  | .list xs => "[" ++ String.intercalate ", " (listRepr xs) ++ "]"
  | .dict es => "\x7b" ++ String.intercalate ", " (dictRepr es) ++ "\x7d"

def listRepr : List Value → List String
  | [] => []
  | v :: rest => pyRepr v :: listRepr rest

def dictRepr : List (String × Value) → List String
  | [] => []
  | (k, v) :: rest => ("\x27" ++ k ++ "\x27: " ++ pyRepr v) :: dictRepr rest

end

/-- Python `str()`. -/
def pyStr : Value → String
  | .str s => s
  | v => pyRepr v

/-- Scan the remainder of a `\x7b\x7b...\x7d\x7d` template after the opening
braces: `[^\x7d]*` then the two closing braces, returning body and tail. -/
def scanRest : List Char → Option (List Char × List Char)
  | '\x7d' :: '\x7d' :: tail => Option.some ([], tail)
  | '\x7d' :: _ => Option.none
  | [] => Option.none
  | c :: rest => (scanRest rest).map (fun p => (c :: p.1, p.2))

/-- `re.findall` for the pattern used by `_resolve_template` (two opening
braces, one or more non-closing-brace characters, two closing braces); on a
failed match the scan resumes one character after the failed opening position,
like the regex engine does.  The fuel argument is the remaining input length
plus one; every recursive call shortens the input, so fuel never runs out. -/
def scanTemplatesAux : Nat → List Char → List String
  | 0, _ => []
  | _ + 1, [] => []
  | fuel + 1, l =>
    match l with
    | '\x7b' :: '\x7b' :: rest2 =>
      match scanRest rest2 with
      | Option.some (body, tail) =>
        if body.isEmpty then scanTemplatesAux fuel ('\x7b' :: rest2)
        else String.mk body :: scanTemplatesAux fuel tail
      | Option.none => scanTemplatesAux fuel ('\x7b' :: rest2)
    | _ :: rest => scanTemplatesAux fuel rest
    | [] => []

/-- All template markers of a string, in scanning order. -/
def scanTemplates (s : String) : List String :=
  scanTemplatesAux (s.toList.length + 1) s.toList

mutual

/-- Python `==` on the modelled values: same-kind comparison, the numeric
`bool`/`int` cross-equality (`True == 1`), order-insensitive dict equality;
different kinds are otherwise unequal. -/
def valueEqB : Value → Value → Bool
  | .str a, .str b => a == b
  | .int a, .int b => a == b
  | .bool a, .bool b => a == b
  | .bool a, .int n => (a && n == 1) || (!a && n == 0)
  | .int n, .bool b => (b && n == 1) || (!b && n == 0)
  | .none, .none => true
  | .list a, .list b => listEqB a b
  | .dict a, .dict b => (a.length == b.length) && dictLeB a b
  | _, _ => false

def listEqB : List Value → List Value → Bool
  | [], [] => true
  | a :: as_, b :: bs => valueEqB a b && listEqB as_ bs
  | _, _ => false

def dictLeB : List (String × Value) → List (String × Value) → Bool
  | [], _ => true
  | (k, v) :: rest, b =>
    (match b.find? (fun e => e.1 = k) with
     | Option.some e => valueEqB v e.2
     | Option.none => false) && dictLeB rest b

end

mutual

/-- Python `<`/`>` ordering: numbers (with `bool` as `0`/`1`), strings,
lexicographic lists; anything else raises `TypeError`. -/
def valueCmp : Value → Value → Except Unit Ordering
  | .int a, .int b => .ok (compare a b)
  | .str a, .str b => .ok (compare a b)
  | .bool a, .bool b => .ok (compare (cond a (1 : Int) 0) (cond b (1 : Int) 0))
  | .bool a, .int b => .ok (compare (cond a (1 : Int) 0) b)
  | .int a, .bool b => .ok (compare a (cond b (1 : Int) 0))
  | .list a, .list b => listCmp a b
  | _, _ => .error ()

def listCmp : List Value → List Value → Except Unit Ordering
  | [], [] => .ok .eq
  | [], _ :: _ => .ok .lt
  | _ :: _, [] => .ok .gt
  | a :: as_, b :: bs =>
    if valueEqB a b then listCmp as_ bs else valueCmp a b

end

/-- Substring occurrence (Python `needle in haystack` for strings). -/
def subListOf : List Char → List Char → Bool
  | n, [] => n.isEmpty
  | n, c :: t => n.isPrefixOf (c :: t) || subListOf n t

/-- Python `a in b`: list membership via `==`, string containment (left
operand must be a string), dict key membership (unhashable left operands
raise `TypeError`); other right operands are not containers (`TypeError`). -/
def pyIn (a b : Value) : Except Unit Bool :=
  match b with
  | .list xs => .ok (xs.any (fun x => valueEqB x a))
  | .str s =>
    match a with
    | .str t => .ok (subListOf t.toList s.toList)
    | _ => .error ()
  | .dict es =>
    match a with
    | .str k => .ok (es.any (fun e => e.1 = k))
    | .list _ => .error ()
    | .dict _ => .error ()
    | _ => .ok false
  | _ => .error ()

/-- Anchored regular-expression match (`re.match`) for the pattern fragment
of literal characters, `.`, and postfix `*`; the repository's conditions use
only this fragment.  Fuel decreases on every call and `2·|pattern| + |input|`
strictly shrinks, so the fuel supplied by `reMatch` never runs out. -/
def reMatchAux : Nat → List Char → List Char → Bool
  | 0, _, _ => false
  | fuel + 1, pat, s =>
    match pat, s with
    | [], _ => true
    | p :: '*' :: ps, s =>
      reMatchAux fuel ps s ||
        (match s with
         | c :: t => (p = '.' || p = c) && reMatchAux fuel (p :: '*' :: ps) t
         | [] => false)
    | p :: ps, c :: s2 => (p = '.' || p = c) && reMatchAux fuel ps s2
    | _ :: _, [] => false

def reMatch (pat s : List Char) : Bool :=
  reMatchAux (2 * pat.length + s.length + 1) pat s

/-- Same Python type (`type(actual) == type(expected)`); `bool` and `int` are
distinct types. -/
def sameKind : Value → Value → Bool
  | .str _, .str _ => true
  | .int _, .int _ => true
  | .bool _, .bool _ => true
  | .none, .none => true
  | .list _, .list _ => true
  | .dict _, .dict _ => true
  | _, _ => false

/-- Python `s.lower()` (ASCII suffices for the compared literals). -/
def lowerStr (s : String) : String :=
  String.mk (s.toList.map Char.toLower)

/-- `PolicyEvaluator._coerce_types`: same types pass through; a numeric actual
against a string expected parses the string as a number (the decimal-integer
fragment of Python `float()`; floats are outside the modelled domain); a
boolean actual against a string expected compares against the truthy literal
set; list-like expecteds pass through for membership operators; otherwise both
sides are stringified.  The `datetime`/`time` branch is unreachable because
the modelled value domain has no time objects. -/
def coerceTypes (actual expected : Value) : Value × Value :=
  if sameKind actual expected then (actual, expected)
  else
    match actual, expected with
    | .int n, .str s =>
      match parsePyInt s with
      | .ok m => (.int n, .int m)
      | .error _ => (.str (pyStr actual), .str (pyStr expected))
    | .bool a, .str s =>
      (.bool a, .bool (lowerStr s = "true" || lowerStr s = "1" || lowerStr s = "yes"))
    | _, _ =>
      match expected with
      | .list _ => (actual, expected)
      | _ => (.str (pyStr actual), .str (pyStr expected))

/-- The `OPERATORS` table of `evaluator.py`. -/
def operatorNames : List String :=
  ["==", "!=", ">", ">=", "<", "<=", "in", "not_in",
   "contains", "not_contains", "startswith", "endswith", "matches"]

/-- The operator functions; `TypeError`/`ValueError` raised by a comparison
surfaces as `.error ()`. -/
def opFunc (op : String) (a e : Value) : Except Unit Bool :=
  if op = "==" then .ok (valueEqB a e)
  else if op = "!=" then .ok (!valueEqB a e)
  else if op = ">" then (valueCmp a e).map (fun o => o = .gt)
  else if op = ">=" then (valueCmp a e).map (fun o => o ≠ .lt)
  else if op = "<" then (valueCmp a e).map (fun o => o = .lt)
  else if op = "<=" then (valueCmp a e).map (fun o => o ≠ .gt)
  else if op = "in" then pyIn a e
  else if op = "not_in" then (pyIn a e).map (fun b => !b)
  else if op = "contains" then pyIn e a
  else if op = "not_contains" then (pyIn e a).map (fun b => !b)
  else if op = "startswith" then .ok ((pyStr e).toList.isPrefixOf (pyStr a).toList)
  else if op = "endswith" then .ok ((pyStr e).toList.reverse.isPrefixOf (pyStr a).toList.reverse)
  else .ok (reMatch (pyStr e).toList (pyStr a).toList)

/-- `PolicyEvaluator._apply_operator`: unknown operators raise
`PolicyEvaluationError` eagerly; `TypeError`/`ValueError` from the comparison
is wrapped into `PolicyEvaluationError`. -/
def applyOperator (op : String) (actual expected : Value) : Except RbacErr Bool :=
  if op ∉ operatorNames then .error (.policyEvaluationError s!"Unknown operator: {op}")
  else
    let ce := coerceTypes actual expected
    match opFunc op ce.1 ce.2 with
    | .ok b => .ok b
    | .error _ => .error (.policyEvaluationError
        ("Cannot compare " ++ pyStr actual ++ " with " ++ pyStr expected ++ " using " ++ op))

/-- `PolicyEvaluator._resolve_template` on a string: substitute each template
marker whose path resolves, leave unresolvable markers (`KeyError`,
`TypeError`, `IndexError` are caught) as literal text; the `ValueError` a
malformed bracket index raises inside `_get_nested_value` is *not* in the
caught tuple and escapes. -/
def resolveTemplateStr (s : String) (ctx : List (String × Value)) :
    Except LookupErr String :=
  (scanTemplates s).foldlM
    (fun acc m =>
      match getNestedValue (String.mk (trimChars m.toList)) ctx with
      | .ok v => .ok (acc.replace ("\x7b\x7b" ++ m ++ "\x7d\x7d") (pyStr v))
      | .error .valueError => .error .valueError
      | .error _ => .ok acc)
    s

/-- `PolicyEvaluator._resolve_template`: non-strings pass through. -/
def resolveTemplate (v : Value) (ctx : List (String × Value)) :
    Except LookupErr Value :=
  match v with
  | .str s => (resolveTemplateStr s ctx).map Value.str
  | _ => .ok v

/-- Escaped Python builtin lookup errors as engine-level errors. -/
def liftLookupErr : LookupErr → RbacErr
  | .keyError => .pyKeyError
  | .indexError => .pyIndexError
  | .typeError => .pyTypeError
  | .valueError => .pyValueError

/-- The operator loop of `_evaluate_field`: resolve templates in the expected
value, apply the operator, AND the results with short-circuit. -/
def evalOps (actual : Value) (ctx : List (String × Value)) :
    List (String × Value) → Except RbacErr Bool
  | [] => .ok true
  | (op, expected) :: rest =>
    match resolveTemplate expected ctx with
    | .error _ => .error .pyValueError
    | .ok expected2 =>
      match applyOperator op actual expected2 with
      | .error e => .error e
      | .ok true => evalOps actual ctx rest
      | .ok false => .ok false

/-- `PolicyEvaluator._evaluate_field`: a non-dict operator mapping raises
`PolicyEvaluationError`; a `KeyError` from path resolution makes the field
condition false (fail-closed); the other builtin lookup errors escape
uncaught. -/
def evaluateField (fieldPath : String) (opsDict : Value)
    (ctx : List (String × Value)) : Except RbacErr Bool :=
  match opsDict with
  | .dict ops =>
    match getNestedValue fieldPath ctx with
    | .error .keyError => .ok false
    | .error e => .error (liftLookupErr e)
    | .ok actual => evalOps actual ctx ops
  | _ => .error (.policyEvaluationError
      ("Operators for \x27" ++ fieldPath ++ "\x27 must be a dictionary"))

/-- The condition loop of `evaluate` (AND with short-circuit). -/
def evalConds (ctx : List (String × Value)) :
    List (String × Value) → Except RbacErr Bool
  | [] => .ok true
  | (p, ops) :: rest =>
    match evaluateField p ops ctx with
    | .error e => .error e
    | .ok true => evalConds ctx rest
    | .ok false => .ok false

/-- `PolicyEvaluator.evaluate`: an empty (or absent, modelled as empty)
condition dict is unconditionally true; otherwise all entries are AND-ed.
(The "conditions must be a dictionary" `ValidationError` branch is outside
the typed model: the embedded conditions are dicts by construction.) -/
def evaluate (conditions : List (String × Value)) (ctx : List (String × Value)) :
    Except RbacErr Bool :=
  if conditions.isEmpty then .ok true else evalConds ctx conditions

/-! ## Role hierarchy resolver (`engine/hierarchy.py`)

The engine constructs `RoleHierarchyResolver(storage)` with the default
`max_depth = 10`.  The resolver's `_hierarchy_cache` memoizes, per
`(role_id, domain)` key, a value that is a pure function of the storage, so it
is observationally transparent while the storage is unchanged and the
resolution functions are modelled as pure functions of the storage. -/

/-- `RoleHierarchyResolver.__init__` default `max_depth`. -/
def maxDepth : Nat := 10

/-- `RoleHierarchy` dataclass. -/
structure RoleHierarchy where
  role_id : String
  ancestors : List String
  descendants : List String
  depth : Nat
deriving Repr, DecidableEq

/-- Python truthiness of an optional string (`if role.parent_id:`): both
`None` and the empty string are falsy. -/
def optTruthy : Option String → Bool
  | Option.none => false
  | Option.some s => s ≠ ""

/-- The `for _ in range(self._max_depth)` loop of `_get_ancestors`: revisiting
a node raises `CircularDependency`; a missing role, a domain mismatch (when a
domain was requested) or a missing/falsy parent link breaks out of the loop;
otherwise the parent is appended and the walk continues.  The fuel argument is
the remaining number of loop iterations. -/
def ancLoop (st : MemoryStorage) (domain : Option String) :
    Nat → String → List String → List String → Except RbacErr (List String)
  | 0, _, _, anc => .ok anc
  | fuel + 1, current, visited, anc =>
    if current ∈ visited then
      .error (.circularDependency s!"Circular dependency detected at role {current}")
    else
      match stGetRole st current with
      | .error _ => .ok anc
      | .ok role =>
        if domain.isSome ∧ role.domain ≠ domain then .ok anc
        else
          match role.parent_id with
          | Option.some p =>
            if p = "" then .ok anc
            else ancLoop st domain fuel p (current :: visited) (anc ++ [p])
          | Option.none => .ok anc

/-- `RoleHierarchyResolver._get_ancestors`: run the bounded walk, then the
post-loop check raises `CircularDependency` — not `MaxDepthExceeded` — when
the walk used up all `max_depth` iterations. -/
def getAncestors (st : MemoryStorage) (roleId : String) (domain : Option String) :
    Except RbacErr (List String) :=
  match ancLoop st domain maxDepth roleId [] [] with
  | .error e => .error e
  | .ok anc =>
    if anc.length ≥ maxDepth then
      .error (.circularDependency ("Role hierarchy exceeds maximum depth of " ++ toString maxDepth))
    else .ok anc

/-- `RoleHierarchyResolver._find_children`: scan `list_roles(domain, 1000)`
for roles whose `parent_id` equals the given id. -/
def findChildren (st : MemoryStorage) (domain : Option String) (parentId : String) :
    List String :=
  ((stListRoles st domain 1000).filter (fun r => r.parent_id = Option.some parentId)).map (fun r => r.id)

/-- The BFS loop of `_get_descendants` with its `len(descendants) <
max_depth * 10` guard.  Each iteration pops one queue element; every enqueued
id is a distinct newly-discovered descendant, so `|roles| + 1` iterations
always suffice and the supplied fuel never runs out. -/
def descLoop (st : MemoryStorage) (domain : Option String) (cap : Nat) :
    Nat → List String → List String → List String → Except RbacErr (List String)
  | 0, _, _, desc => .ok desc
  | _ + 1, [], _, desc => .ok desc
  | fuel + 1, current :: rest, visited, desc =>
    if desc.length ≥ cap then .ok desc
    else if current ∈ visited then
      .error (.circularDependency s!"Circular dependency detected at role {current}")
    else
      let step := (findChildren st domain current).foldl
        (fun (dq : List String × List String) c =>
          if c ∈ dq.1 then dq else (dq.1 ++ [c], dq.2 ++ [c]))
        (desc, rest)
      descLoop st domain cap fuel step.2 (current :: visited) step.1

/-- `RoleHierarchyResolver._get_descendants`. -/
def getDescendants (st : MemoryStorage) (roleId : String) (domain : Option String) :
    Except RbacErr (List String) :=
  descLoop st domain (maxDepth * 10) (st.roles.length + 1) [roleId] [] []

/-- `RoleHierarchyResolver._resolve_hierarchy` (without the transparent memo):
ancestors first, then descendants, depth = number of ancestors. -/
def resolveHierarchy (st : MemoryStorage) (roleId : String) (domain : Option String) :
    Except RbacErr RoleHierarchy :=
  match getAncestors st roleId domain with
  | .error e => .error e
  | .ok anc =>
    match getDescendants st roleId domain with
    | .error e => .error e
    | .ok desc => .ok ⟨roleId, anc, desc, anc.length⟩

/-- `RoleHierarchyResolver.get_role_hierarchy`. -/
def getRoleHierarchy (st : MemoryStorage) (roleId : String) (domain : Option String) :
    Except RbacErr RoleHierarchy :=
  resolveHierarchy st roleId domain

/-- Insertion-ordered union (`set.update` under the set-iteration-order
abstraction of this model). -/
def unionAppend (acc : List String) (xs : List String) : List String :=
  xs.foldl (fun a x => if x ∈ a then a else a ++ [x]) acc

/-- `RoleHierarchyResolver.get_effective_roles`: start from the direct role
ids, union in each role's ancestors, skipping roles whose resolution fails
with `RoleNotFound`; every other failure (in particular `CircularDependency`)
propagates. -/
def hierGetEffectiveRoles (st : MemoryStorage) (roleIds : List String)
    (domain : Option String) : Except RbacErr (List String) :=
  roleIds.foldlM
    (fun acc rid =>
      match resolveHierarchy st rid domain with
      | .ok h => .ok (unionAppend acc h.ancestors)
      | .error (.roleNotFound _) => .ok acc
      | .error e => .error e)
    (unionAppend [] roleIds)

/-- The `str()` form of the repository's exceptions
(`"[CODE] message"`), used by `validate_hierarchy`'s re-raise. -/
def circularMsgStr (m : String) : String :=
  "[CIRCULAR_DEPENDENCY] " ++ m

/-- `RoleHierarchyResolver.validate_hierarchy`: with a truthy candidate
parent, walk the parent's ancestors and raise `CircularDependency` if the
role is among them (NOTE: there is no `role_id == parent_id` check); with a
falsy parent, resolve the role's own hierarchy; a caught
`CircularDependency` is re-raised with its `str()` form. -/
def validateHierarchy (st : MemoryStorage) (roleId : String)
    (parentId : Option String) : Except RbacErr Bool :=
  let body : Except RbacErr Bool :=
    if optTruthy parentId then
      match getAncestors st (parentId.getD "") Option.none with
      | .error e => .error e
      | .ok parentAncestors =>
        if roleId ∈ parentAncestors then
          .error (.circularDependency
            ("Role " ++ roleId ++ " is already an ancestor of " ++ parentId.getD ""))
        else .ok true
    else
      match resolveHierarchy st roleId Option.none with
      | .error e => .error e
      | .ok _ => .ok true
  match body with
  | .error (.circularDependency m) => .error (.circularDependency (circularMsgStr m))
  | other => other

/-! ## Authorization engine (`engine/engine.py`) -/

/-- The evaluation context (a Python dict). -/
abbrev Ctx := List (String × Value)

/-- Python dict assignment `d[k] = v`: replace the (unique) existing binding
in place, else append. -/
def setEntry : Ctx → String → Value → Ctx
  | [], k, v => [(k, v)]
  | e :: t, k, v => if e.1 = k then (k, v) :: t else e :: setEntry t k v

/-- `\x7b**base, **overrides\x7d`. -/
def mergeEntries (base : Ctx) (overrides : Ctx) : Ctx :=
  overrides.foldl (fun acc kv => setEntry acc kv.1 kv.2) base

/-- An optional string as a context value (`None` or the string). -/
def strOptValue : Option String → Value
  | Option.none => .none
  | Option.some s => .str s

/-- The `user` block of `_build_context`: the stored user's fields overlaid
with its attribute dict, or the bare id stub when `get_user` raises
`UserNotFound`. -/
def userCtxValue (st : MemoryStorage) (uid : String) : Value :=
  match stGetUser st uid with
  | .ok u => .dict (mergeEntries
      [("id", .str u.id), ("email", .str u.email), ("name", strOptValue u.name),
       ("status", .str u.status.value), ("domain", strOptValue u.domain)]
      u.attributes)
  | .error _ => .dict [("id", .str uid)]

/-- The `resource` block of `_build_context`: full attributes when the
resource resolves, an `\x7bid, type\x7d` stub when it does not, a bare
`\x7btype\x7d` when only a resource type was supplied, nothing otherwise. -/
def resourceCtxValue (st : MemoryStorage) (rt rid : Option String) : Option Value :=
  if optTruthy rid then
    match stGetResource st (rid.getD "") with
    | .ok res => Option.some (.dict (mergeEntries
        [("id", .str res.id), ("type", .str res.type), ("domain", strOptValue res.domain)]
        res.attributes))
    | .error _ => Option.some (.dict [("id", .str (rid.getD "")), ("type", strOptValue rt)])
  else if optTruthy rt then Option.some (.dict [("type", .str (rt.getD ""))])
  else Option.none

/-- `AuthorizationEngine._build_context`: copy the caller context, then set
the `user`, `resource` and `time` blocks. -/
def buildContext (st : MemoryStorage) (uid : String) (rt rid : Option String)
    (extra : Option Ctx) (now : Time) : Ctx :=
  let c0 := extra.getD []
  let c1 := setEntry c0 "user" (userCtxValue st uid)
  let c2 :=
    match resourceCtxValue st rt rid with
    | Option.some v => setEntry c1 "resource" v
    | Option.none => c1
  setEntry c2 "time" (.dict
    [("current", .str now.iso), ("hour", .int now.hour),
     ("day_of_week", .int now.dayOfWeek), ("timestamp", .int now.timestamp)])

/-- `context.get('user', \x7b\x7d).get('domain')` as an optional string (the
contexts the engine builds always carry a dict under `user` and a string or
`None` under its `domain` key). -/
def ctxUserDomain (ctx : Ctx) : Option String :=
  match assocFind ctx "user" with
  | Option.some (.dict u) =>
    match assocFind u "domain" with
    | Option.some (.str s) => Option.some s
    | _ => Option.none
  | _ => Option.none

/-- One entry of the injected `ICacheProvider` model: the stored value plus
the TTL it was stored with. -/
structure CacheEntry where
  key : String
  value : List String
  ttl : Option Nat
deriving Repr, DecidableEq

/-- The injected cache's state. -/
abbrev CacheState := List CacheEntry

/-- `cache.get(key)`. -/
def cacheGet (c : CacheState) (k : String) : Option (List String) :=
  (c.find? (fun e => e.key = k)).map (fun e => e.value)

/-- `cache.set(key, value, ttl)`: overwrite the existing entry or append. -/
def cacheSet : CacheState → String → List String → Option Nat → CacheState
  | [], k, v, t => [⟨k, v, t⟩]
  | e :: rest, k, v, t => if e.key = k then ⟨k, v, t⟩ :: rest else e :: cacheSet rest k v t

/-- The stored value and TTL of a cache entry. -/
def cacheEntryOf (c : CacheState) (k : String) : Option (List String × Option Nat) :=
  (c.find? (fun e => e.key = k)).map (fun e => (e.value, e.ttl))

/-- The engine's constructor flags (`enable_hierarchy`, `enable_abac`). -/
structure EngineConfig where
  enableHierarchy : Bool := true
  enableAbac : Bool := true
deriving Repr, DecidableEq

/-- `f"user_roles:\x7buser_id\x7d:\x7bdomain\x7d"` (Python formats `None` as
`"None"`). -/
def pyOptStr : Option String → String
  | Option.none => "None"
  | Option.some s => s

def engineCacheKey (uid : String) (domain : Option String) : String :=
  "user_roles:" ++ uid ++ ":" ++ pyOptStr domain

/-- The cache consultation of `_get_effective_roles`: `cached = cache.get(key)`
followed by the truthiness test `if cached:` (an absent cache, a missing key
and a cached empty list all fail it). -/
def cacheHitLookup (cache : Option CacheState) (key : String) : Option (List String) :=
  match cache with
  | Option.some c =>
    match cacheGet c key with
    | Option.some v => if v.isEmpty then Option.none else Option.some v
    | Option.none => Option.none
  | Option.none => Option.none

/-- `AuthorizationEngine._get_effective_roles` after the domain has been read
from the context: consult the injected cache (a cached empty list is falsy
and does not count as a hit), else fetch the direct roles (`UserNotFound`
re-raised), resolve the hierarchy when enabled and the direct set is
non-empty, and store the result in the cache with `ttl=300`. -/
def getEffectiveRolesCore (st : MemoryStorage) (cache : Option CacheState)
    (cfg : EngineConfig) (uid : String) (domain : Option String) (now : Time) :
    Except RbacErr (List String × Option CacheState) :=
  let key := engineCacheKey uid domain
  match cacheHitLookup cache key with
  | Option.some v => .ok (v, cache)
  | Option.none =>
    match stGetUserRoles st uid domain now with
    | .error e => .error e
    | .ok userRoles =>
      let direct := userRoles.map (fun r => r.id)
      let effE : Except RbacErr (List String) :=
        if cfg.enableHierarchy && !direct.isEmpty then
          hierGetEffectiveRoles st direct domain
        else .ok direct
      match effE with
      | .error e => .error e
      | .ok eff => .ok (eff, cache.map (fun c => cacheSet c key eff (Option.some 300)))

/-- `AuthorizationEngine._get_effective_roles`: the domain comes from the
`user` block of the evaluation context. -/
def getEffectiveRoles (st : MemoryStorage) (cache : Option CacheState)
    (cfg : EngineConfig) (uid : String) (ctx : Ctx) (now : Time) :
    Except RbacErr (List String × Option CacheState) :=
  getEffectiveRolesCore st cache cfg uid (ctxUserDomain ctx) now

/-- `AuthorizationEngine._collect_permissions`: union the permission-id sets
of the resolvable roles (failures skipped), then resolve each id to a
`Permission`, skipping unresolvable ids. -/
def collectPermissions (st : MemoryStorage) (roleIds : List String) :
    List Permission :=
  let permIds := roleIds.foldl
    (fun acc rid =>
      match stGetRole st rid with
      | .ok r => unionAppend acc r.permissions
      | .error _ => acc)
    []
  permIds.filterMap (fun pid => (stGetPermission st pid).toOption)

/-- `AuthorizationEngine._find_matching_permissions`: keep permissions whose
action and resource type match exactly or by `*`; when ABAC is enabled and
the permission has a (truthy) condition dict, a condition that evaluates to
anything but `True` — including a raised evaluation error — drops the
permission. -/
def findMatchingPermissions (cfg : EngineConfig) (perms : List Permission)
    (action rt : String) (ctx : Ctx) : List String :=
  perms.foldl
    (fun matched p =>
      if p.action ≠ action ∧ p.action ≠ "*" then matched
      else if p.resource_type ≠ rt ∧ p.resource_type ≠ "*" then matched
      else if cfg.enableAbac && !p.conditions.isEmpty then
        match evaluate p.conditions ctx with
        | .ok true => matched ++ [p.id]
        | _ => matched
      else matched ++ [p.id])
    []

/-- `AuthorizationResult` dataclass. -/
structure AuthResult where
  allowed : Bool
  reason : String
  matched_permissions : List String
  user_id : String
  action : String
  resource_id : Option String
  timestamp : Time
deriving Repr

/-- `AuthorizationEngine.check_permission`. -/
def checkPermission (st : MemoryStorage) (cache : Option CacheState)
    (cfg : EngineConfig) (uid action rt : String) (rid : Option String)
    (extra : Option Ctx) (now : Time) :
    Except RbacErr (AuthResult × Option CacheState) :=
  let fullCtx := buildContext st uid (Option.some rt) rid extra now
  match getEffectiveRoles st cache cfg uid fullCtx now with
  | .error e => .error e
  | .ok (roles, cache2) =>
    if roles.isEmpty then
      .ok ({ allowed := false, reason := "User has no roles assigned",
             matched_permissions := [], user_id := uid, action := action,
             resource_id := rid, timestamp := now }, cache2)
    else
      let perms := collectPermissions st roles
      let matched := findMatchingPermissions cfg perms action rt fullCtx
      if !matched.isEmpty then
        .ok ({ allowed := true,
               reason := "Allowed by permission(s): " ++ String.intercalate ", " matched,
               matched_permissions := matched, user_id := uid, action := action,
               resource_id := rid, timestamp := now }, cache2)
      else
        .ok ({ allowed := false,
               reason := "No matching permission for " ++ action ++ " on " ++ rt,
               matched_permissions := [], user_id := uid, action := action,
               resource_id := rid, timestamp := now }, cache2)

/-- One element of the `checks` list of `check_permission_batch`. -/
structure CheckRequest where
  action : String
  resource_type : String
  resource_id : Option String := Option.none
  context : Option Ctx := Option.none

/-- `AuthorizationEngine.check_permission_batch`: resolve the user's roles
once against a bare base context, collect the permissions once, then filter
per check, with the terse `"Allowed"`/`"Denied"` reasons. -/
def checkPermissionBatch (st : MemoryStorage) (cache : Option CacheState)
    (cfg : EngineConfig) (uid : String) (checks : List CheckRequest) (now : Time) :
    Except RbacErr (List AuthResult × Option CacheState) :=
  let baseCtx := buildContext st uid Option.none Option.none Option.none now
  match getEffectiveRoles st cache cfg uid baseCtx now with
  | .error e => .error e
  | .ok (roles, cache2) =>
    let perms := collectPermissions st roles
    let results := checks.map (fun c =>
      let fullCtx := buildContext st uid (Option.some c.resource_type) c.resource_id c.context now
      let matched := findMatchingPermissions cfg perms c.action c.resource_type fullCtx
      { allowed := !matched.isEmpty,
        reason := if !matched.isEmpty then "Allowed" else "Denied",
        matched_permissions := matched, user_id := uid, action := c.action,
        resource_id := c.resource_id, timestamp := now : AuthResult })
    .ok (results, cache2)

/-- `AuthorizationEngine.get_user_permissions`: a hand-built context with the
bare user-id stub and the domain argument at top level, role resolution, then
the optional (truthy) resource-type filter. -/
def getUserPermissions (st : MemoryStorage) (cache : Option CacheState)
    (cfg : EngineConfig) (uid : String) (resource_type domain : Option String)
    (now : Time) : Except RbacErr (List Permission × Option CacheState) :=
  let ctx : Ctx := [("user", .dict [("id", .str uid)]), ("domain", strOptValue domain)]
  match getEffectiveRoles st cache cfg uid ctx now with
  | .error e => .error e
  | .ok (roles, cache2) =>
    let perms := collectPermissions st roles
    let perms2 :=
      if optTruthy resource_type then
        perms.filter (fun p => Option.some p.resource_type = resource_type)
      else perms
    .ok (perms2, cache2)

/-- Calling `check_permission` individually for each batch item, in order
(the decision list a caller would obtain instead of `check_permission_batch`). -/
def individualChecks (st : MemoryStorage) (cfg : EngineConfig) (uid : String)
    (checks : List CheckRequest) (now : Time) : Except RbacErr (List AuthResult) :=
  match checks with
  | [] => .ok []
  | c :: rest =>
    match checkPermission st Option.none cfg uid c.action c.resource_type
        c.resource_id c.context now with
    | .error e => .error e
    | .ok p =>
      match individualChecks st cfg uid rest now with
      | .error e => .error e
      | .ok ds => .ok (p.1 :: ds)

/-- The decision fields shared verbatim by `check_permission` and
`check_permission_batch` (everything except the human-readable reason and the
timestamp). -/
def decisionCore (r : AuthResult) : Bool × List String × String × String × Option String :=
  (r.allowed, r.matched_permissions, r.user_id, r.action, r.resource_id)

/-- Whether a result failed with the `MaxDepthExceeded` error kind. -/
def isMaxDepthErr {α : Type} : Except RbacErr α → Bool
  | .error (.maxDepthExceeded _ _ _) => true
  | _ => false

/-! ## Concrete scenarios used by the claim theorems -/

/-- A fixed check-time instant. -/
def tnow : Time :=
  { iso := "2026-01-01T00:00:00", hour := 0, dayOfWeek := 3, timestamp := 1767225600 }

/-- The engine's default configuration (hierarchy and ABAC enabled). -/
def cfgD : EngineConfig := {}

/-- A suspended user holding a role that directly grants a matching
permission. -/
def stSuspended : MemoryStorage :=
  { users := [{ id := "user_1", email := "u1@example.com", status := .suspended }],
    roles := [{ id := "role_1", name := "Reader", permissions := ["perm_read"] }],
    permissions := [{ id := "perm_read", resource_type := "document", action := "read" }],
    role_assignments := [{ user_id := "user_1", role_id := "role_1" }] }

/-- A storage that does not contain the user id `ghost`. -/
def stNoGhost : MemoryStorage :=
  { users := [{ id := "user_1", email := "u1@example.com" }] }

/-- The role-id chain `r0, r1, ...`. -/
def cW (i : Nat) : String := "r" ++ toString i

/-- The chain roles: `r i` has parent `r (i+1)` for the first ten links. -/
def rW (i : Nat) : Role :=
  { id := cW i, name := "R",
    parent_id := if i < 10 then Option.some (cW (i + 1)) else Option.none }

/-- Eleven roles forming an acyclic parent chain of exactly ten hops. -/
def stChain : MemoryStorage := { roles := (List.range 11).map rW }

/-- Role `a` of the two-cycle. -/
def roleA : Role := { id := "a", name := "A", parent_id := Option.some "b" }

/-- Role `b` of the two-cycle. -/
def roleB : Role := { id := "b", name := "B", parent_id := Option.some "a" }

/-- Two roles whose parent links form a cycle `a -> b -> a`. -/
def stCycle : MemoryStorage := { roles := [roleA, roleB] }

/-- A single parentless role, for the self-parent validation check. -/
def stSelfParent : MemoryStorage := { roles := [{ id := "role_a", name := "A" }] }

/-- A user with no role assignments. -/
def stNoRoles : MemoryStorage := { users := [{ id := "u1", email := "e@x.com" }] }

/-- An active user holding a role that directly grants a matching permission
(for the batch-versus-individual comparison). -/
def stBatch : MemoryStorage :=
  { users := [{ id := "user_1", email := "u1@example.com" }],
    roles := [{ id := "role_1", name := "Reader", permissions := ["perm_read"] }],
    permissions := [{ id := "perm_read", resource_type := "document", action := "read" }],
    role_assignments := [{ user_id := "user_1", role_id := "role_1" }] }

/-- The single batch request used by the batch scenarios. -/
def reqRead : CheckRequest := { action := "read", resource_type := "document" }

/-- The cache state after the effective-roles write of the no-roles user. -/
def cacheAfterWrite : CacheState :=
  [⟨engineCacheKey "u1" Option.none, [], Option.some 300⟩]

/-- The condition of the spec's fail-closed test: `resource.owner_id` must
equal the template-referenced actor id. -/
def ownerCondOps : List (String × Value) :=
  [("==", .str "\x7b\x7buser.id\x7d\x7d")]

/-- A context in which `resource.owner_id` is absent. -/
def ctxNoOwner : Ctx :=
  [("user", .dict [("id", .str "u1")]), ("resource", .dict [("type", .str "doc")])]

/-! ## Supporting lemmas -/

/-- Looking up a key just set finds the set value and TTL. -/
theorem cacheEntryOf_cacheSet (c : CacheState) (k : String) (v : List String)
    (t : Option Nat) : cacheEntryOf (cacheSet c k v t) k = Option.some (v, t) := by
  induction c with
  | nil => simp [cacheSet, cacheEntryOf, List.find?]
  | cons e rest ih =>
    by_cases hk : e.key = k
    · simp only [cacheSet, if_pos hk, cacheEntryOf]
      rw [List.find?_cons_of_pos _ (by simp)]
      rfl
    · simp only [cacheSet, if_neg hk, cacheEntryOf]
      rw [List.find?_cons_of_neg _ (by simp [hk])]
      exact ih

/-- `setEntry` binds the written key. -/
theorem assocFind_setEntry_self (c : Ctx) (k : String) (v : Value) :
    assocFind (setEntry c k v) k = Option.some v := by
  induction c with
  | nil => simp [setEntry, assocFind, List.find?]
  | cons e rest ih =>
    by_cases hk : e.1 = k
    · simp only [setEntry, if_pos hk, assocFind]
      rw [List.find?_cons_of_pos _ (by simp)]
      rfl
    · simp only [setEntry, if_neg hk, assocFind]
      rw [List.find?_cons_of_neg _ (by simp [hk])]
      exact ih

/-- `setEntry` leaves other keys untouched. -/
theorem assocFind_setEntry_ne (c : Ctx) (k k2 : String) (v : Value) (hne : k2 ≠ k) :
    assocFind (setEntry c k v) k2 = assocFind c k2 := by
  have hkk2 : k ≠ k2 := Ne.symm hne
  induction c with
  | nil => simp [setEntry, assocFind, List.find?, hkk2]
  | cons e rest ih =>
    by_cases hk : e.1 = k
    · have h2 : e.1 ≠ k2 := by rw [hk]; exact hkk2
      simp only [setEntry, if_pos hk, assocFind]
      rw [List.find?_cons_of_neg _ (by simp [hkk2]), List.find?_cons_of_neg _ (by simp [h2])]
    · simp only [setEntry, if_neg hk, assocFind]
      by_cases hk2 : e.1 = k2
      · rw [List.find?_cons_of_pos _ (by simp [hk2]), List.find?_cons_of_pos _ (by simp [hk2])]
      · rw [List.find?_cons_of_neg _ (by simp [hk2]), List.find?_cons_of_neg _ (by simp [hk2])]
        exact ih

/-- The `user` block of a built context is exactly `userCtxValue` (the later
`resource` and `time` writes do not disturb it, and it overwrites any
caller-supplied `user` entry). -/
theorem assocFind_buildContext_user (st : MemoryStorage) (uid : String)
    (rt rid : Option String) (extra : Option Ctx) (now : Time) :
    assocFind (buildContext st uid rt rid extra now) "user" =
      Option.some (userCtxValue st uid) := by
  unfold buildContext
  rw [assocFind_setEntry_ne _ _ _ _ (by decide)]
  cases resourceCtxValue st rt rid with
  | none => exact assocFind_setEntry_self _ _ _
  | some v =>
    rw [assocFind_setEntry_ne _ _ _ _ (by decide)]
    exact assocFind_setEntry_self _ _ _

/-- The domain that `_get_effective_roles` reads from a built context depends
only on the stored user. -/
theorem ctxUserDomain_buildContext (st : MemoryStorage) (uid : String)
    (rt rid : Option String) (extra : Option Ctx) (now : Time) :
    ctxUserDomain (buildContext st uid rt rid extra now) =
      ctxUserDomain [("user", userCtxValue st uid)] := by
  unfold ctxUserDomain
  rw [assocFind_buildContext_user]
  rfl

/-- With no injected cache, `_get_effective_roles` returns no cache state. -/
theorem getEffectiveRolesCore_no_cache (st : MemoryStorage) (cfg : EngineConfig)
    (uid : String) (dom : Option String) (now : Time) (v : List String)
    (c2 : Option CacheState)
    (h : getEffectiveRolesCore st Option.none cfg uid dom now = .ok (v, c2)) :
    c2 = Option.none := by
  simp only [getEffectiveRolesCore, cacheHitLookup] at h
  cases hr : stGetUserRoles st uid dom now with
  | error e => rw [hr] at h; simp at h
  | ok userRoles =>
    rw [hr] at h
    split at h
    · simp at h
    · split at h
      · simp at h
      · injection h with h1
        injection h1 with _ h2
        exact h2.symm

/-- One revisit step of the ancestor walk raises `CircularDependency`. -/
theorem ancLoop_revisit (st : MemoryStorage) (dom : Option String) (fuel : Nat)
    (current : String) (visited anc : List String) (hmem : current ∈ visited) :
    ancLoop st dom (fuel + 1) current visited anc =
      .error (.circularDependency s!"Circular dependency detected at role {current}") := by
  simp [ancLoop, hmem]

/-- One successful step of the ancestor walk (no domain filter). -/
theorem ancLoop_step (st : MemoryStorage) (fuel : Nat) (current : String)
    (visited anc : List String) (hmem : current ∉ visited) (role : Role)
    (hrole : stGetRole st current = .ok role) (p : String)
    (hp : role.parent_id = Option.some p) (hpne : p ≠ "") :
    ancLoop st Option.none (fuel + 1) current visited anc =
      ancLoop st Option.none fuel p (current :: visited) (anc ++ [p]) := by
  simp [ancLoop, hmem, hrole, hp, hpne]

/-- Walking an acyclic unbroken parent chain for `n` steps accumulates the
`n` parents. -/
theorem ancLoop_chain (st : MemoryStorage) :
    ∀ (n : Nat) (c : Nat → String) (r : Nat → Role) (visited anc : List String),
    (∀ i, i < n → stGetRole st (c i) = .ok (r i)) →
    (∀ i, i < n → (r i).parent_id = Option.some (c (i + 1))) →
    (∀ i, i < n → c (i + 1) ≠ "") →
    (∀ i, i < n → c i ∉ visited) →
    (∀ j, j < n → ∀ i, i < j → c i ≠ c j) →
    ancLoop st Option.none n (c 0) visited anc =
      .ok (anc ++ (List.range n).map (fun i => c (i + 1))) := by
  intro n
  induction n with
  | zero => intro c r visited anc _ _ _ _ _; simp [ancLoop]
  | succ n ih =>
    intro c r visited anc hrole hparent hne hnv hdist
    rw [ancLoop_step st n (c 0) visited anc (hnv 0 (Nat.succ_pos n)) (r 0)
        (hrole 0 (Nat.succ_pos n)) (c 1) (hparent 0 (Nat.succ_pos n)) (hne 0 (Nat.succ_pos n))]
    have ih2 := ih (fun i => c (i + 1)) (fun i => r (i + 1)) (c 0 :: visited) (anc ++ [c 1])
      (fun i hi => hrole (i + 1) (Nat.succ_lt_succ hi))
      (fun i hi => hparent (i + 1) (Nat.succ_lt_succ hi))
      (fun i hi => hne (i + 1) (Nat.succ_lt_succ hi))
      (fun i hi => by
        intro hmem
        rcases List.mem_cons.mp hmem with h0 | hv
        · exact (hdist (i + 1) (Nat.succ_lt_succ hi) 0 (Nat.succ_pos i)) h0.symm
        · exact (hnv (i + 1) (Nat.succ_lt_succ hi)) hv)
      (fun j hj i hij => hdist (j + 1) (Nat.succ_lt_succ hj) (i + 1) (Nat.succ_lt_succ hij))
    rw [ih2]
    congr 1
    rw [List.append_assoc]
    congr 1
    rw [List.range_succ_eq_map]
    simp [List.map_map, Function.comp]

/-! ## Claim theorems -/

/-- C1: the claim states that a non-active actor is never granted access, but
nothing in `check_permission`'s pipeline checks the user's status
(`get_user_roles` only checks presence): a suspended user holding a role with
a matching permission receives an allow decision. -/
theorem suspended_user_is_granted_access :
    checkPermission stSuspended Option.none cfgD "user_1" "read" "document"
        Option.none Option.none tnow =
      .ok ({ allowed := true, reason := "Allowed by permission(s): perm_read",
             matched_permissions := ["perm_read"], user_id := "user_1", action := "read",
             resource_id := Option.none, timestamp := tnow }, Option.none) ∧
    (stGetUser stSuspended "user_1").toOption.map User.status =
      Option.some EntityStatus.suspended :=
  ⟨rfl, rfl⟩

/-- C2: the claim states that an unknown actor resolves to a denial decision,
but `_get_effective_roles` re-raises the `UserNotFound` that
`get_user_roles` raises for an id absent from storage, so `check_permission`
raises instead of returning a decision (only `_build_context` falls back to
the bare id stub). -/
theorem unknown_user_raises_user_not_found :
    checkPermission stNoGhost Option.none cfgD "ghost" "read" "document"
        Option.none Option.none tnow =
      .error (.userNotFound "User ghost not found") ∧
    stNoGhost.users.find? (fun u => u.id = "ghost") = Option.none :=
  ⟨rfl, rfl⟩

/-- C5: the claim states that `validate_hierarchy(role_id, parent_id)` raises
`CircularDependency` when `role_id = parent_id`, but the implementation only
tests whether `role_id` is among the parent's ancestors — a role is not its
own ancestor, so validating a role as its own parent succeeds. -/
theorem validate_hierarchy_accepts_self_parent :
    validateHierarchy stSelfParent "role_a" (Option.some "role_a") = .ok true ∧
    (stGetRole stSelfParent "role_a").isOk = true :=
  ⟨rfl, rfl⟩

/-- C6 counterexample: an out-of-range bracketed index is an `IndexError`,
which `_evaluate_field` (catching only `KeyError`) lets escape: `evaluate`
raises instead of treating the condition as false. -/
theorem bracket_index_out_of_range_raises :
    evaluate [("tags[1]", .dict [("==", .str "x")])] [("tags", .list [.str "a"])] =
      .error .pyIndexError ∧
    evaluate [("tags[1]", .dict [("==", .str "x")])] [("tags", .list [.str "a"])] ≠
      .ok false :=
  ⟨rfl, fun h => Except.noConfusion h⟩

/-- C8 counterexample: the batch path labels its decisions with the terse
reasons `"Allowed"`/`"Denied"` while the individual path produces the
detailed reasons, so the decision lists are not equal element by element. -/
theorem batch_reason_differs_from_individual :
    (checkPermissionBatch stBatch Option.none cfgD "user_1" [reqRead] tnow).toOption.map
        (fun p => p.1.map (fun r => r.reason)) = Option.some ["Allowed"] ∧
    (checkPermission stBatch Option.none cfgD "user_1" "read" "document"
        Option.none Option.none tnow).toOption.map (fun p => p.1.reason) =
      Option.some "Allowed by permission(s): perm_read" ∧
    ("Allowed" : String) ≠ "Allowed by permission(s): perm_read" :=
  ⟨rfl, rfl, by decide⟩

/-- C9 counterexample: the effective-roles entry is written to the injected
cache with `ttl=300`, not without a time-to-live. -/
theorem effective_roles_cached_with_ttl :
    getEffectiveRolesCore stNoRoles (Option.some []) cfgD "u1" Option.none tnow =
      .ok ([], Option.some cacheAfterWrite) ∧
    (cacheEntryOf cacheAfterWrite (engineCacheKey "u1" Option.none)).map (fun p => p.2) =
      Option.some (Option.some 300) ∧
    (Option.some 300 : Option Nat) ≠ Option.none :=
  ⟨rfl, rfl, by decide⟩

/-- C10: `get_user_permissions` places its `domain` argument at the top level
of the hand-built context while `_get_effective_roles` reads the domain from
the nested `user` entry (which holds only the id), so the domain argument
never influences role resolution and the returned permission list is
identical for any two domains. -/
theorem get_user_permissions_domain_irrelevant (st : MemoryStorage)
    (cache : Option CacheState) (cfg : EngineConfig) (uid : String)
    (rt : Option String) (now : Time) (d1 d2 : Option String) :
    getUserPermissions st cache cfg uid rt d1 now =
      getUserPermissions st cache cfg uid rt d2 now := rfl

/-- C3 counterexample: a role whose acyclic parent chain is exactly
`max_depth` hops long makes ancestor resolution raise `CircularDependency`
(with only the maximum depth in the message), not `MaxDepthExceeded` with a
current/max depth payload — `MaxDepthExceeded` is defined in
`core/exceptions.py` but never raised. -/
theorem max_depth_overflow_is_not_max_depth_exceeded :
    getAncestors stChain "r0" Option.none =
      .error (.circularDependency "Role hierarchy exceeds maximum depth of 10") ∧
    isMaxDepthErr (getAncestors stChain "r0" Option.none) = false ∧
    isMaxDepthErr (getRoleHierarchy stChain "r0" Option.none) = false ∧
    isMaxDepthErr (hierGetEffectiveRoles stChain ["r0"] Option.none) = false :=
  ⟨rfl, rfl, rfl, rfl⟩

/-- C3 (amended): resolving the ancestors of a role whose acyclic parent
chain is at least `max_depth` (10) hops long raises a `CircularDependency`
failure whose message names the maximum depth (the current depth is not
carried, and the `MaxDepthExceeded` class is not used). -/
theorem deep_chain_raises_circular_dependency (st : MemoryStorage) (c : Nat → String)
    (r : Nat → Role)
    (hrole : ∀ i, i < maxDepth → stGetRole st (c i) = .ok (r i))
    (hparent : ∀ i, i < maxDepth → (r i).parent_id = Option.some (c (i + 1)))
    (hne : ∀ i, i < maxDepth → c (i + 1) ≠ "")
    (hdist : ∀ j, j < maxDepth → ∀ i, i < j → c i ≠ c j) :
    getAncestors st (c 0) Option.none =
      .error (.circularDependency
        ("Role hierarchy exceeds maximum depth of " ++ toString maxDepth)) ∧
    getRoleHierarchy st (c 0) Option.none =
      .error (.circularDependency
        ("Role hierarchy exceeds maximum depth of " ++ toString maxDepth)) := by
  have hloop := ancLoop_chain st maxDepth c r [] [] hrole hparent hne
    (fun i _ => List.not_mem_nil _) hdist
  have hanc : getAncestors st (c 0) Option.none =
      .error (.circularDependency
        ("Role hierarchy exceeds maximum depth of " ++ toString maxDepth)) := by
    simp only [getAncestors, hloop]
    rw [if_pos (by simp)]
  refine ⟨hanc, ?_⟩
  simp only [getRoleHierarchy, resolveHierarchy, hanc]

/-- C3 witness: the concrete eleven-role chain. -/
theorem deep_chain_raises_circular_dependency_witness :
    getAncestors stChain (cW 0) Option.none =
      .error (.circularDependency
        ("Role hierarchy exceeds maximum depth of " ++ toString maxDepth)) :=
  (deep_chain_raises_circular_dependency stChain cW rW (by decide) (by decide)
    (by decide) (by decide)).1

/-- C4: for roles `a` and `b` whose parent links form a two-cycle, resolving
the effective roles of `a` terminates (the embedded walk is bounded by
construction, mirroring the `range(max_depth)` loop) and raises a
`CircularDependency` failure, which `get_effective_roles` propagates (it only
swallows `RoleNotFound`). -/
theorem two_cycle_raises_circular_dependency (st : MemoryStorage) (a b : String)
    (ra rb : Role) (ha : stGetRole st a = .ok ra) (hpa : ra.parent_id = Option.some b)
    (hbne : b ≠ "") (hb : stGetRole st b = .ok rb) (hpb : rb.parent_id = Option.some a)
    (hane : a ≠ "") :
    ∃ m, hierGetEffectiveRoles st [a] Option.none = .error (.circularDependency m) := by
  have step1 : ancLoop st Option.none maxDepth a [] [] =
      ancLoop st Option.none 9 b [a] [b] := by
    rw [show (maxDepth : Nat) = 9 + 1 from rfl]
    exact ancLoop_step st 9 a [] [] (List.not_mem_nil a) ra ha b hpa hbne
  have key : ∃ m, ancLoop st Option.none maxDepth a [] [] =
      .error (.circularDependency m) := by
    by_cases hab : b = a
    · have h2 : ancLoop st Option.none 9 b [a] [b] =
          .error (.circularDependency s!"Circular dependency detected at role {b}") := by
        rw [show (9 : Nat) = 8 + 1 from rfl]
        exact ancLoop_revisit st Option.none 8 b [a] [b] (by simp [hab])
      exact ⟨_, step1.trans h2⟩
    · have step2 : ancLoop st Option.none 9 b [a] [b] =
          ancLoop st Option.none 8 a [b, a] [b, a] := by
        rw [show (9 : Nat) = 8 + 1 from rfl]
        exact ancLoop_step st 8 b [a] [b] (by simp [hab]) rb hb a hpb hane
      have h3 : ancLoop st Option.none 8 a [b, a] [b, a] =
          .error (.circularDependency s!"Circular dependency detected at role {a}") := by
        rw [show (8 : Nat) = 7 + 1 from rfl]
        exact ancLoop_revisit st Option.none 7 a [b, a] [b, a] (by simp)
      exact ⟨_, (step1.trans step2).trans h3⟩
  obtain ⟨m, hm⟩ := key
  refine ⟨m, ?_⟩
  have hres : resolveHierarchy st a Option.none = .error (.circularDependency m) := by
    simp only [resolveHierarchy, getAncestors, hm]
  simp [hierGetEffectiveRoles, hres, unionAppend]

/-- C4 witness: the concrete two-cycle. -/
theorem two_cycle_raises_circular_dependency_witness :
    ∃ m, hierGetEffectiveRoles stCycle ["a"] Option.none =
      .error (.circularDependency m) :=
  two_cycle_raises_circular_dependency stCycle "a" "b" roleA roleB (by rfl) (by rfl)
    (by decide) (by rfl) (by rfl) (by decide)

/-- C6 (amended): when an entry's attribute path fails to resolve with a
missing mapping key (`KeyError`) — the only lookup failure `_evaluate_field`
catches — the entry's condition is false and the whole expression evaluates
to false without raising; an out-of-range bracketed index raises instead. -/
theorem missing_key_fails_closed (path : String) (ops : List (String × Value))
    (ctx : Ctx) (rest : List (String × Value))
    (h : getNestedValue path ctx = .error .keyError) :
    evaluateField path (.dict ops) ctx = .ok false ∧
    evaluate ((path, .dict ops) :: rest) ctx = .ok false := by
  have h1 : evaluateField path (.dict ops) ctx = .ok false := by
    simp [evaluateField, h]
  refine ⟨h1, ?_⟩
  simp [evaluate, evalConds, h1]

/-- C6 witness: the spec's fail-closed test — `resource.owner_id` referencing
the actor id denies (fails closed) when `resource.owner_id` is absent. -/
theorem missing_key_fails_closed_witness :
    evaluateField "resource.owner_id" (.dict ownerCondOps) ctxNoOwner = .ok false ∧
    evaluate [("resource.owner_id", .dict ownerCondOps)] ctxNoOwner = .ok false :=
  missing_key_fails_closed "resource.owner_id" ownerCondOps ctxNoOwner [] (by rfl)

/-- C7: when the effective role set of the actor is empty, `check_permission`
returns the "User has no roles assigned" denial with an empty match list,
short-circuiting before any permission lookup. -/
theorem no_roles_short_circuit_denial (st : MemoryStorage)
    (cache : Option CacheState) (cfg : EngineConfig) (uid action rt : String)
    (rid : Option String) (extra : Option Ctx) (now : Time)
    (cache2 : Option CacheState)
    (h : getEffectiveRoles st cache cfg uid
          (buildContext st uid (Option.some rt) rid extra now) now = .ok ([], cache2)) :
    checkPermission st cache cfg uid action rt rid extra now =
      .ok ({ allowed := false, reason := "User has no roles assigned",
             matched_permissions := [], user_id := uid, action := action,
             resource_id := rid, timestamp := now }, cache2) := by
  simp [checkPermission, h]

/-- C7 witness: a stored user with no role assignments. -/
theorem no_roles_short_circuit_denial_witness :
    checkPermission stNoRoles Option.none cfgD "u1" "read" "doc"
        Option.none Option.none tnow =
      .ok ({ allowed := false, reason := "User has no roles assigned",
             matched_permissions := [], user_id := "u1", action := "read",
             resource_id := Option.none, timestamp := tnow }, Option.none) :=
  no_roles_short_circuit_denial stNoRoles Option.none cfgD "u1" "read" "doc"
    Option.none Option.none tnow Option.none (by rfl)

/-- C9 (amended): whenever a check misses the injected cache and stores the
actor's effective roles, the entry is written with a fixed TTL of 300 seconds
passed to the cache provider — not without a time-to-live; whether the entry
expires is delegated to the injected provider. -/
theorem cache_write_carries_ttl (st : MemoryStorage) (cfg : EngineConfig)
    (uid : String) (dom : Option String) (now : Time) (c : CacheState)
    (v : List String) (c2 : CacheState)
    (hmiss : (cacheGet c (engineCacheKey uid dom)).getD [] = [])
    (h : getEffectiveRolesCore st (Option.some c) cfg uid dom now =
          .ok (v, Option.some c2)) :
    c2 = cacheSet c (engineCacheKey uid dom) v (Option.some 300) ∧
    cacheEntryOf c2 (engineCacheKey uid dom) = Option.some (v, Option.some 300) := by
  have hhit : cacheHitLookup (Option.some c) (engineCacheKey uid dom) = Option.none := by
    simp only [cacheHitLookup]
    cases hg : cacheGet c (engineCacheKey uid dom) with
    | none => rfl
    | some w =>
      rw [hg] at hmiss
      simp only [Option.getD] at hmiss
      simp [hmiss]
  simp only [getEffectiveRolesCore, hhit] at h
  cases hr : stGetUserRoles st uid dom now with
  | error e => rw [hr] at h; simp at h
  | ok userRoles =>
    rw [hr] at h
    split at h
    · simp at h
    · split at h
      · simp at h
      · injection h with h1
        injection h1 with hv hc
        injection hc with hc2
        constructor
        · rw [← hc2, ← hv]
        · rw [← hc2, ← hv]
          exact cacheEntryOf_cacheSet c (engineCacheKey uid dom) _ _

/-- C9 witness: a concrete miss writes the entry with `ttl=300`. -/
theorem cache_write_carries_ttl_witness :
    cacheAfterWrite = cacheSet [] (engineCacheKey "u1" Option.none) []
        (Option.some 300) ∧
    cacheEntryOf cacheAfterWrite (engineCacheKey "u1" Option.none) =
      Option.some ([], Option.some 300) :=
  cache_write_carries_ttl stNoRoles cfgD "u1" Option.none tnow [] [] cacheAfterWrite
    (by rfl) (by rfl)

/-- C8 (amended): whenever `check_permission_batch` returns a decision list,
calling `check_permission` individually for each request, in order, succeeds
and yields decisions with the same allowed flag, matched-permission list,
user id, action and resource id, element by element; the human-readable
reasons (and timestamps) differ (`"Allowed"`/`"Denied"` versus the detailed
reasons), so the decisions are not equal outright. -/
theorem batch_matches_individual_on_core_fields (st : MemoryStorage)
    (cfg : EngineConfig) (uid : String) (checks : List CheckRequest) (now : Time)
    (bs : List AuthResult) (c2 : Option CacheState)
    (hb : checkPermissionBatch st Option.none cfg uid checks now = .ok (bs, c2)) :
    ∃ ds, individualChecks st cfg uid checks now = .ok ds ∧
      ds.map decisionCore = bs.map decisionCore ∧
      ds.length = checks.length := by
  simp only [checkPermissionBatch, getEffectiveRoles] at hb
  rw [ctxUserDomain_buildContext] at hb
  cases hE : getEffectiveRolesCore st Option.none cfg uid
      (ctxUserDomain [("user", userCtxValue st uid)]) now with
  | error e => rw [hE] at hb; simp at hb
  | ok pr =>
    obtain ⟨roles, cr⟩ := pr
    have hcr : cr = Option.none := getEffectiveRolesCore_no_cache st cfg uid _ now roles cr hE
    subst hcr
    rw [hE] at hb
    injection hb with hb1
    injection hb1 with hbs hc2
    have hsingle : ∀ ck : CheckRequest, ∃ d,
        checkPermission st Option.none cfg uid ck.action ck.resource_type
          ck.resource_id ck.context now = .ok (d, Option.none) ∧
        decisionCore d =
          (!(findMatchingPermissions cfg (collectPermissions st roles) ck.action
              ck.resource_type (buildContext st uid (Option.some ck.resource_type)
                ck.resource_id ck.context now)).isEmpty,
           findMatchingPermissions cfg (collectPermissions st roles) ck.action
              ck.resource_type (buildContext st uid (Option.some ck.resource_type)
                ck.resource_id ck.context now),
           uid, ck.action, ck.resource_id) := by
      intro ck
      by_cases hempty : roles.isEmpty
      · have hroles : roles = [] := by
          cases roles with
          | nil => rfl
          | cons x xs => simp [List.isEmpty] at hempty
        subst hroles
        refine ⟨{ allowed := false, reason := "User has no roles assigned",
                  matched_permissions := [], user_id := uid, action := ck.action,
                  resource_id := ck.resource_id, timestamp := now }, ?_, rfl⟩
        simp only [checkPermission, getEffectiveRoles]
        rw [ctxUserDomain_buildContext, hE]
        rfl
      · have hne : roles.isEmpty = false := by
          cases h2 : roles.isEmpty with
          | false => rfl
          | true => rw [h2] at hempty; simp at hempty
        by_cases hm : (findMatchingPermissions cfg (collectPermissions st roles)
            ck.action ck.resource_type (buildContext st uid
              (Option.some ck.resource_type) ck.resource_id ck.context now)).isEmpty
        · have hmnil : findMatchingPermissions cfg (collectPermissions st roles)
              ck.action ck.resource_type (buildContext st uid
                (Option.some ck.resource_type) ck.resource_id ck.context now) = [] := by
            generalize hg : findMatchingPermissions cfg (collectPermissions st roles)
              ck.action ck.resource_type (buildContext st uid
                (Option.some ck.resource_type) ck.resource_id ck.context now) = l at hm
            cases l with
            | nil => rfl
            | cons x xs => simp [List.isEmpty] at hm
          refine ⟨{ allowed := false,
                    reason := "No matching permission for " ++ ck.action ++ " on " ++ ck.resource_type,
                    matched_permissions := [], user_id := uid, action := ck.action,
                    resource_id := ck.resource_id, timestamp := now }, ?_, ?_⟩
          · simp only [checkPermission, getEffectiveRoles]
            rw [ctxUserDomain_buildContext, hE]
            simp [hne, hmnil]
          · simp [decisionCore, hmnil]
        · refine ⟨{ allowed := true,
                    reason := "Allowed by permission(s): " ++ String.intercalate ", "
                      (findMatchingPermissions cfg (collectPermissions st roles)
                        ck.action ck.resource_type (buildContext st uid
                          (Option.some ck.resource_type) ck.resource_id ck.context now)),
                    matched_permissions := findMatchingPermissions cfg
                      (collectPermissions st roles) ck.action ck.resource_type
                      (buildContext st uid (Option.some ck.resource_type)
                        ck.resource_id ck.context now),
                    user_id := uid, action := ck.action,
                    resource_id := ck.resource_id, timestamp := now }, ?_, ?_⟩
          · simp only [checkPermission, getEffectiveRoles]
            rw [ctxUserDomain_buildContext, hE]
            simp [hne, hm]
          · simp [decisionCore, hm]
    have hmap : ∀ l : List CheckRequest, ∃ ds,
        individualChecks st cfg uid l now = .ok ds ∧
        ds.map decisionCore = l.map (fun ck =>
          (!(findMatchingPermissions cfg (collectPermissions st roles) ck.action
              ck.resource_type (buildContext st uid (Option.some ck.resource_type)
                ck.resource_id ck.context now)).isEmpty,
           findMatchingPermissions cfg (collectPermissions st roles) ck.action
              ck.resource_type (buildContext st uid (Option.some ck.resource_type)
                ck.resource_id ck.context now),
           uid, ck.action, ck.resource_id)) ∧
        ds.length = l.length := by
      intro l
      induction l with
      | nil => exact ⟨[], rfl, rfl, rfl⟩
      | cons ck rest ih =>
        obtain ⟨ds, hds, hcore, hlen⟩ := ih
        obtain ⟨d, hd, hdcore⟩ := hsingle ck
        refine ⟨d :: ds, ?_, ?_, ?_⟩
        · simp [individualChecks, hd, hds]
        · simp [hcore, hdcore]
        · simp [hlen]
    obtain ⟨ds, hds, hcore, hlen⟩ := hmap checks
    refine ⟨ds, hds, ?_, hlen⟩
    rw [hcore, ← hbs, List.map_map]
    rfl

/-- C8 witness: a one-request batch against a user with one direct grant. -/
theorem batch_matches_individual_on_core_fields_witness :
    ∃ ds, individualChecks stBatch cfgD "user_1" [reqRead] tnow = .ok ds ∧
      ds.map decisionCore =
        (checkPermissionBatch stBatch Option.none cfgD "user_1" [reqRead] tnow).toOption.elim []
          (fun p => p.1.map decisionCore) ∧
      ds.length = [reqRead].length := by
  have h := batch_matches_individual_on_core_fields stBatch cfgD "user_1" [reqRead] tnow
    ([{ allowed := true, reason := "Allowed", matched_permissions := ["perm_read"],
        user_id := "user_1", action := "read", resource_id := Option.none,
        timestamp := tnow }]) Option.none (by rfl)
  obtain ⟨ds, hds, hcore, hlen⟩ := h
  exact ⟨ds, hds, by rw [hcore]; rfl, hlen⟩

end RBAC
